import Mathlib

/-!
Shallow embedding of `pybot-youpi2-app` (file `src/pybot/youpi2/app.py`),
the `YoupiApplication` lifecycle runner.

The runner drives setup / loop / teardown phases around two external
resources (a control panel and an arm client).  We embed `run` as a
trace-producing interpreter: a `Behavior` records the outcome of each
extension-point call of a concrete subclass (whether `setup` raises, what
the k-th `loop` call does, whether `teardown` or `soft_hi_Z` raise) and
the schedule of termination signals; `run` returns the list of observable
events together with its result (a returned exit code or a propagated
exception).  The while loop is driven by fuel; running out of fuel models
a loop phase that has not terminated yet.

Exceptions are opaque and modelled by a tag.  Panel display operations
(`clear`, `center_text_at`, `display_error`) are modelled as events; the
logging calls are ignored.
-/

namespace Youpi2App

/-- Opaque exception values (Python `Exception` instances are only caught,
stored and passed around, never inspected by the runner). -/
abbrev Exc := Nat

/-- Parsed command-line arguments used by `run` (app.py lines 102-106):
the panel device path and the arm node name. -/
structure Args where
  pnldev : String
  arm_node_name : String
deriving DecidableEq, Repr

/-- `TITLE` class attribute (app.py line 67). -/
def TITLE : String := "Youpi application"

/-- Observable events of one execution of `run`: resource construction,
signal-handler installation, panel operations, extension-point calls and
the arm safe-state command. -/
inductive Event where
  | pnlCreate (path : String)
  | armCreate (name : String)
  | installHandlers
  | pnlClear
  | pnlCenterText (text : String) (line : Nat)
  | setupCall
  | onRunError (e : Exc)
  | onUnexpectedError (e : Exc)
  | pnlDisplayError (e : Exc)
  | loopCall
  | sigCaught
  | onTerminate
  | teardownCall (exit_code : Nat)
  | softHiZ
deriving DecidableEq, Repr

/-- Outcome of one call to the `loop` extension point: it either returns
(with a truthy or falsy stop indicator, app.py line 128) or raises. -/
inductive LoopOut where
  | ret (stop : Bool)
  | err (e : Exc)
deriving DecidableEq, Repr

/-- The behaviour of a concrete subclass together with its environment:
outcome of resource acquisition, of `setup`, of the k-th `loop` call, of
`teardown` (as a function of the exit code it receives), of the arm's
`soft_hi_Z` command, and the signal-delivery schedule (`sigAt k` is true
when a termination signal is delivered before the k-th check of the
while-loop condition, i.e. between loop call k-1 and loop call k). -/
structure Behavior where
  pnlAcquire : Option Exc
  armAcquire : Option Exc
  setupResult : Option Exc
  loopResult : Nat → LoopOut
  teardownResult : Nat → Option Exc
  softHiZResult : Option Exc
  sigAt : Nat → Bool

/-- How the while-loop phase (app.py lines 126-128) ends: the condition
became false, some `loop` call raised, or the fuel ran out (the loop has
not terminated within the observed number of iterations). -/
inductive LoopExit where
  | done
  | raised (e : Exc)
  | fuelOut
deriving DecidableEq, Repr

/-- The while loop `while not self.terminated and not loop_stop:
loop_stop = self.loop()` (app.py lines 126-128), with the signal handler
`terminate` (app.py lines 90-93) firing at the condition-check points the
schedule selects: it emits the caught-signal event, sets the terminated
flag and invokes `on_terminate`.  `k` is the index of the next condition
check (= number of completed `loop` calls). -/
def whileLoop (b : Behavior) : Nat → Nat → Bool → Bool → List Event × LoopExit
  | 0, _, _, _ => ([], .fuelOut)
  | fuel+1, k, terminated, loopStop =>
    let sig := b.sigAt k
    let evts0 : List Event := if sig then [.sigCaught, .onTerminate] else []
    let term2 := terminated || sig
    if term2 || loopStop then
      (evts0, .done)
    else
      match b.loopResult k with
      | .err e => (evts0 ++ [.loopCall], .raised e)
      | .ret stop =>
        let r := whileLoop b fuel (k+1) term2 stop
        (evts0 ++ .loopCall :: r.1, r.2)

/-- Result of `run`: a normally returned exit code, an exception that
propagated out of `run`, or fuel exhaustion of the loop phase. -/
inductive RunResult where
  | returned (code : Nat)
  | propagated (e : Exc)
  | fuelOut
deriving DecidableEq, Repr

/-- `clear_screen` (app.py lines 95-97): clear the panel and center the
title on line 1. -/
def clear_screen : List Event := [.pnlClear, .pnlCenterText TITLE 1]

/-- Events of the `except` branch of the setup try (app.py lines 114-122):
`setup` is called and raises, `on_run_error` fires, the error is rendered
on the panel. -/
def setupFailEvents (e : Exc) : List Event :=
  [.setupCall, .onRunError e, .pnlDisplayError e]

/-- The `finally` block (app.py lines 135-143): clear the screen, show
"terminating", call `teardown exit_code`, then `arm.soft_hi_Z()`.  An
exception raised by `teardown` or by `soft_hi_Z` is returned as the second
component and propagates (nothing catches it); `soft_hi_Z` is not reached
when `teardown` raises. -/
def finallyBlock (b : Behavior) (exit_code : Nat) : List Event × Option Exc :=
  let evs := clear_screen ++ [Event.pnlCenterText "terminating" 3, Event.teardownCall exit_code]
  match b.teardownResult exit_code with
  | some e => (evs, some e)
  | none => (evs ++ [Event.softHiZ], b.softHiZResult)

/-- Combine the pending exception of the `finally` block with the exit
code computed by the try statement (app.py lines 139-146). -/
def finish : Option Exc → Nat → RunResult
  | some e, _ => .propagated e
  | none, c => .returned c

/-- The `else` branch of the setup try (app.py lines 123-143): the loop
phase followed by the `finally` block, with `exit_code = 1` and the
unexpected-error handling when a `loop` call raised, `exit_code = 0`
otherwise. -/
def loopPhase (b : Behavior) (fuel : Nat) : List Event × RunResult :=
  let lp := whileLoop b fuel 0 false false
  match lp.2 with
  | .fuelOut => (lp.1, .fuelOut)
  | .done =>
    let fb := finallyBlock b 0
    (lp.1 ++ fb.1, finish fb.2 0)
  | .raised e =>
    let fb := finallyBlock b 1
    (lp.1 ++ [Event.onUnexpectedError e, Event.pnlDisplayError e] ++ fb.1, finish fb.2 1)

/-- `YoupiApplication.run` (app.py lines 99-146): construct the panel from
`args.pnldev` and the arm client from `args.arm_node_name` (an acquisition
exception propagates at once), install the signal handlers, clear the
screen, then run setup / loop / teardown as in the source.  On a setup
exception `on_run_error` fires, the error is rendered, and `run` returns
exit code 1 without entering the loop phase or the `finally` block. -/
def run (b : Behavior) (args : Args) (fuel : Nat) : List Event × RunResult :=
  match b.pnlAcquire with
  | some e => ([.pnlCreate args.pnldev], .propagated e)
  | none =>
  match b.armAcquire with
  | some e => ([.pnlCreate args.pnldev, .armCreate args.arm_node_name], .propagated e)
  | none =>
  let pre : List Event :=
    [.pnlCreate args.pnldev, .armCreate args.arm_node_name, .installHandlers] ++ clear_screen
  match b.setupResult with
  | some e => (pre ++ setupFailEvents e, .returned 1)
  | none =>
    let lp := loopPhase b fuel
    (pre ++ Event.setupCall :: lp.1, lp.2)

/-- Event classifiers used to count invocations in a trace. -/
def isTeardownCall : Event → Bool
  | .teardownCall _ => true
  | _ => false

def isSoftHiZ : Event → Bool
  | .softHiZ => true
  | _ => false

def isLoopCall : Event → Bool
  | .loopCall => true
  | _ => false

def isOnTerminate : Event → Bool
  | .onTerminate => true
  | _ => false

def isOnRunError : Event → Bool
  | .onRunError _ => true
  | _ => false

def isOnUnexpectedError : Event → Bool
  | .onUnexpectedError _ => true
  | _ => false

/-- The exit code the `finally` block receives as a function of how the
while loop ended: 1 when a `loop` call raised, 0 otherwise. -/
def loopExitCode : LoopExit → Nat
  | .raised _ => 1
  | _ => 0

/-- Option registrations performed by `main` (app.py lines 82-83): flag
string together with its default value. -/
structure ArgSpec where
  flag : String
  default : String
deriving DecidableEq, Repr

/-- The two options `main` adds to the common parser beyond the base
flags: `--pnldev` and `--arm-node-name` with their defaults. -/
def mainArgSpecs : List ArgSpec :=
  [⟨"--pnldev", "/mnt/lcdfs"⟩, ⟨"--arm-node-name", "nros.youpi2"⟩]

/-! ### Methods and the `terminated` attribute

A separate, method-level view of the instance state: which methods of the
class write the `terminated` attribute. -/

/-- The methods executable on a constructed `YoupiApplication` instance
(app.py lines 90-180; the extension points are no-ops by default but any
override still has no access path that assigns `terminated`: the only
assignments in the class are in `__init__` and `terminate`). -/
inductive Op where
  | terminate
  | clear_screen
  | setup
  | loop
  | teardown
  | on_run_error
  | on_unexpected_error
  | on_terminate
deriving DecidableEq, Repr

/-- Effect of each method on the `terminated` attribute: `terminate`
assigns `True` (app.py line 91); no other method assigns it. -/
def opTerminated : Op → Bool → Bool
  | .terminate, _ => true
  | _, t => t

/-- `self.terminated = False` in `__init__` (app.py line 77). -/
def terminatedInit : Bool := false

/-- Value of the `terminated` attribute after a sequence of method calls
on a freshly constructed instance. -/
def terminatedAfter (ops : List Op) : Bool :=
  ops.foldl (fun t op => opTerminated op t) terminatedInit

/-- Number of value changes of the `terminated` attribute along a
sequence of method calls, starting from value `t`. -/
def terminatedFlips : Bool → List Op → Nat
  | _, [] => 0
  | t, op :: rest =>
    (if opTerminated op t = t then 0 else 1) + terminatedFlips (opTerminated op t) rest

/-! ### Concrete behaviours used as witnesses -/

/-- Arguments with the default option values. -/
def someArgs : Args := ⟨"/mnt/lcdfs", "nros.youpi2"⟩

/-- Everything succeeds; the first `loop` call asks to stop. -/
def bOk : Behavior := ⟨none, none, none, fun _ => .ret true, fun _ => none, none, fun _ => false⟩

/-- `setup` raises (exception tag 3); everything else would succeed. -/
def bSetupFail : Behavior :=
  ⟨none, none, some 3, fun _ => .ret false, fun _ => none, none, fun _ => false⟩

/-- `loop` returns a falsy value on call 0 and a truthy stop indicator on
call 1 (N = 2). -/
def bStop2 : Behavior :=
  ⟨none, none, none, fun k => if k = 1 then .ret true else .ret false,
   fun _ => none, none, fun _ => false⟩

/-- `loop` raises (exception tag 7) on call 1 (K = 2). -/
def bRaise2 : Behavior :=
  ⟨none, none, none, fun k => if k = 1 then .err 7 else .ret false,
   fun _ => none, none, fun _ => false⟩

/-- A termination signal is delivered between loop call 0 and loop call 1
(M = 1); `loop` never stops on its own. -/
def bSig1 : Behavior :=
  ⟨none, none, none, fun _ => .ret false, fun _ => none, none, fun k => k == 1⟩

/-- Constructing the panel raises (exception tag 9). -/
def bPnlFail : Behavior :=
  ⟨some 9, none, none, fun _ => .ret false, fun _ => none, none, fun _ => false⟩

/-- Constructing the arm client raises (exception tag 11). -/
def bArmFail : Behavior :=
  ⟨none, some 11, none, fun _ => .ret false, fun _ => none, none, fun _ => false⟩

/-- `teardown` raises (exception tag 13) whatever exit code it receives;
the first `loop` call asks to stop. -/
def bTdFail : Behavior :=
  ⟨none, none, none, fun _ => .ret true, fun _ => some 13, none, fun _ => false⟩

/-! ### Helper lemmas about the loop phase -/

/-- The while loop emits only loop-call and signal-handler events:
counting any other event class over its trace gives zero. -/
theorem whileLoop_countP_zero (b : Behavior) (p : Event → Bool)
    (hp1 : p Event.loopCall = false) (hp2 : p Event.sigCaught = false)
    (hp3 : p Event.onTerminate = false) :
    ∀ (fuel k : Nat) (t s : Bool), (whileLoop b fuel k t s).1.countP p = 0 := by
  intro fuel
  induction fuel with
  | zero => intro k t s; simp [whileLoop]
  | succ n ih =>
    intro k t s
    cases hsig : b.sigAt k <;> cases t <;> cases s <;>
      rcases hl : b.loopResult k with (_ | _) | e <;>
        simp [whileLoop, hsig, hl, List.countP_cons, List.countP_append, ih, hp1, hp2, hp3]

/-- A teardown-call event never occurs in the while-loop trace. -/
theorem whileLoop_no_teardown (b : Behavior) (fuel k : Nat) (t s : Bool) (c : Nat) :
    Event.teardownCall c ∉ (whileLoop b fuel k t s).1 := by
  intro hmem
  have h0 := whileLoop_countP_zero b isTeardownCall rfl rfl rfl fuel k t s
  rw [List.countP_eq_zero] at h0
  have := h0 _ hmem
  simp [isTeardownCall] at this

/-- Skipping an all-false initial segment: when the first `n` condition
checks see no signal and the first `n` loop calls return a falsy value,
the loop performs those `n` calls and continues. -/
theorem whileLoop_skip (b : Behavior) (n : Nat) :
    ∀ (fuel k : Nat),
      (∀ j, j < n → b.sigAt (k + j) = false) →
      (∀ j, j < n → b.loopResult (k + j) = .ret false) →
      whileLoop b (n + fuel) k false false =
        (List.replicate n Event.loopCall ++ (whileLoop b fuel (k + n) false false).1,
         (whileLoop b fuel (k + n) false false).2) := by
  induction n with
  | zero => intro fuel k _ _; simp
  | succ m ih =>
    intro fuel k hsig hloop
    have h0 : b.sigAt k = false := by simpa using hsig 0 (by omega)
    have hl0 : b.loopResult k = .ret false := by simpa using hloop 0 (by omega)
    have hfuel : m + 1 + fuel = (m + fuel) + 1 := by omega
    rw [hfuel]
    have ihx := ih fuel (k + 1)
      (fun j hj => by
        have h := hsig (j + 1) (by omega)
        have e : k + (j + 1) = k + 1 + j := by omega
        rwa [e] at h)
      (fun j hj => by
        have h := hloop (j + 1) (by omega)
        have e : k + (j + 1) = k + 1 + j := by omega
        rwa [e] at h)
    have e2 : k + 1 + m = k + (m + 1) := by omega
    rw [e2] at ihx
    simp [whileLoop, h0, hl0, ihx, List.replicate_succ]

/-- One stopping step: the condition check sees no signal, the `loop`
call returns a truthy stop indicator, and the next check exits. -/
theorem whileLoop_stop (b : Behavior) (fuel k : Nat)
    (hsig : b.sigAt k = false) (hsig2 : b.sigAt (k + 1) = false)
    (hstop : b.loopResult k = .ret true) :
    whileLoop b (fuel + 2) k false false = ([Event.loopCall], .done) := by
  simp [whileLoop, hsig, hsig2, hstop]

/-- One raising step: the condition check sees no signal and the `loop`
call raises. -/
theorem whileLoop_raise (b : Behavior) (fuel k : Nat) (e : Exc)
    (hsig : b.sigAt k = false) (hl : b.loopResult k = .err e) :
    whileLoop b (fuel + 1) k false false = ([Event.loopCall], .raised e) := by
  simp [whileLoop, hsig, hl]

/-- One signal step: a termination signal has been delivered before this
condition check; the handler fires and the loop exits. -/
theorem whileLoop_sig (b : Behavior) (fuel k : Nat) (hsig : b.sigAt k = true) :
    whileLoop b (fuel + 1) k false false = ([Event.sigCaught, Event.onTerminate], .done) := by
  simp [whileLoop, hsig]

/-- Counting over a replicated list. -/
theorem countP_replicate (p : Event → Bool) (n : Nat) (a : Event) :
    (List.replicate n a).countP p = if p a then n else 0 := by
  induction n with
  | zero => simp
  | succ m ih =>
    by_cases h : p a <;> simp [List.replicate_succ, List.countP_cons, ih, h]

/-! ### Helper lemmas about the `terminated` attribute -/

/-- No method turns the `terminated` attribute off. -/
theorem opTerminated_true (op : Op) : opTerminated op true = true := by
  cases op <;> rfl

/-- Once the attribute is true it stays true under any method sequence. -/
theorem foldl_opTerminated_true (ops : List Op) :
    ops.foldl (fun t op => opTerminated op t) true = true := by
  induction ops with
  | nil => rfl
  | cons op rest ih => simp [List.foldl_cons, opTerminated_true, ih]

/-- A sequence started with the attribute already true changes it zero
times. -/
theorem terminatedFlips_true (ops : List Op) : terminatedFlips true ops = 0 := by
  induction ops with
  | nil => rfl
  | cons op rest ih => simp [terminatedFlips, opTerminated_true, ih]

/-- A sequence started with the attribute false changes it once when it
contains a `terminate` call and zero times otherwise. -/
theorem terminatedFlips_false (ops : List Op) :
    terminatedFlips false ops = if Op.terminate ∈ ops then 1 else 0 := by
  induction ops with
  | nil => simp [terminatedFlips]
  | cons op rest ih =>
    cases op <;> simp [terminatedFlips, opTerminated, ih, terminatedFlips_true]

/-! ### Claim theorems -/

/-- C1, counterexample: the claim says teardown and `soft_hi_Z` run
exactly once on every terminating path including the setup-error path,
but in `run` the `finally` block lies inside the `else` of the setup
`try` (app.py lines 114-143): on the concrete setup-error behaviour the
run terminates normally with exit code 1 while `teardown` and
`soft_hi_Z` are each invoked zero times. -/
theorem teardown_not_invoked_on_setup_error :
    (run bSetupFail someArgs 5).2 = .returned 1 ∧
    (run bSetupFail someArgs 5).1.countP isTeardownCall = 0 ∧
    (run bSetupFail someArgs 5).1.countP isSoftHiZ = 0 := by
  decide

/-- C3: when `setup` raises, `loop` is never invoked, `on_run_error`
fires exactly once with that exception, the error is rendered on the
panel, and `run` returns exit code 1. -/
theorem setup_error_behavior (b : Behavior) (args : Args) (fuel : Nat) (e : Exc)
    (h1 : b.pnlAcquire = none) (h2 : b.armAcquire = none)
    (h3 : b.setupResult = some e) :
    (run b args fuel).1.countP isLoopCall = 0 ∧
    (run b args fuel).1.countP isOnRunError = 1 ∧
    Event.onRunError e ∈ (run b args fuel).1 ∧
    Event.pnlDisplayError e ∈ (run b args fuel).1 ∧
    (run b args fuel).2 = .returned 1 := by
  simp [run, h1, h2, h3, setupFailEvents, clear_screen, List.countP_cons,
    isLoopCall, isOnRunError]

/-- C3, witness at the concrete setup-error behaviour. -/
theorem setup_error_behavior_witness :
    (run bSetupFail someArgs 5).1.countP isLoopCall = 0 ∧
    (run bSetupFail someArgs 5).1.countP isOnRunError = 1 ∧
    Event.onRunError 3 ∈ (run bSetupFail someArgs 5).1 ∧
    Event.pnlDisplayError 3 ∈ (run bSetupFail someArgs 5).1 ∧
    (run bSetupFail someArgs 5).2 = .returned 1 :=
  setup_error_behavior bSetupFail someArgs 5 3 rfl rfl rfl

/-- C8: an exception while constructing the panel or the arm client
propagates out of `run` at once: the trace shows a single construction
attempt (no retry) and contains neither the handler installation nor the
setup call. -/
theorem acquire_error_propagates (b : Behavior) (args : Args) (fuel : Nat) :
    (∀ e, b.pnlAcquire = some e →
      run b args fuel = ([Event.pnlCreate args.pnldev], .propagated e)) ∧
    (∀ e, b.pnlAcquire = none → b.armAcquire = some e →
      run b args fuel =
        ([Event.pnlCreate args.pnldev, Event.armCreate args.arm_node_name],
         .propagated e)) := by
  constructor
  · intro e he
    simp [run, he]
  · intro e h1 h2
    simp [run, h1, h2]

/-- C8, witness at the concrete acquisition-failure behaviours. -/
theorem acquire_error_propagates_witness :
    run bPnlFail someArgs 5 = ([Event.pnlCreate "/mnt/lcdfs"], .propagated 9) ∧
    run bArmFail someArgs 5 =
      ([Event.pnlCreate "/mnt/lcdfs", Event.armCreate "nros.youpi2"], .propagated 11) :=
  ⟨(acquire_error_propagates bPnlFail someArgs 5).1 9 rfl,
   (acquire_error_propagates bArmFail someArgs 5).2 11 rfl rfl⟩

/-- C6: `main` registers `--pnldev` with default `/mnt/lcdfs` and
`--arm-node-name` with default `nros.youpi2`, and `run` constructs the
panel from exactly the parsed `pnldev` value and the arm client from
exactly the parsed `arm_node_name` value, unchanged, as its first two
actions. -/
theorem main_args_propagation :
    mainArgSpecs = [⟨"--pnldev", "/mnt/lcdfs"⟩, ⟨"--arm-node-name", "nros.youpi2"⟩] ∧
    (∀ (b : Behavior) (args : Args) (fuel : Nat),
      (run b args fuel).1.take 1 = [Event.pnlCreate args.pnldev]) ∧
    (∀ (b : Behavior) (args : Args) (fuel : Nat), b.pnlAcquire = none →
      (run b args fuel).1.take 2 =
        [Event.pnlCreate args.pnldev, Event.armCreate args.arm_node_name]) := by
  refine ⟨rfl, ?_, ?_⟩
  · intro b args fuel
    rcases h1 : b.pnlAcquire with _ | e
    · rcases h2 : b.armAcquire with _ | e
      · rcases h3 : b.setupResult with _ | e <;> simp [run, h1, h2, h3, clear_screen]
      · simp [run, h1, h2]
    · simp [run, h1]
  · intro b args fuel h1
    rcases h2 : b.armAcquire with _ | e
    · rcases h3 : b.setupResult with _ | e <;> simp [run, h1, h2, h3, clear_screen]
    · simp [run, h1, h2]

/-- C6, witness at a concrete behaviour and argument record. -/
theorem main_args_propagation_witness :
    (run bOk someArgs 3).1.take 2 =
      [Event.pnlCreate "/mnt/lcdfs", Event.armCreate "nros.youpi2"] :=
  main_args_propagation.2.2 bOk someArgs 3 rfl

/-- C9: the `terminated` attribute starts false at construction, only the
signal handler `terminate` ever changes it (and it sets it to true), once
true it stays true under any further method sequence, and over any method
sequence from construction it changes value exactly once when a
`terminate` call occurs and never otherwise. -/
theorem terminated_flag_monotone :
    terminatedInit = false ∧
    (∀ (t : Bool) (op : Op), opTerminated op t ≠ t →
      op = Op.terminate ∧ opTerminated op t = true) ∧
    (∀ ops more : List Op, terminatedAfter ops = true →
      terminatedAfter (ops ++ more) = true) ∧
    (∀ ops : List Op,
      terminatedFlips terminatedInit ops = if Op.terminate ∈ ops then 1 else 0) := by
  refine ⟨rfl, ?_, ?_, ?_⟩
  · intro t op h
    cases op <;> cases t <;> simp_all [opTerminated]
  · intro ops more h
    rw [terminatedAfter, List.foldl_append]
    rw [terminatedAfter] at h
    rw [h]
    exact foldl_opTerminated_true more
  · intro ops
    simpa [terminatedInit] using terminatedFlips_false ops

/-- C9, witness on a concrete method sequence. -/
theorem terminated_flag_monotone_witness :
    terminatedAfter ([Op.loop, Op.terminate] ++ [Op.loop, Op.loop]) = true ∧
    terminatedFlips terminatedInit [Op.loop, Op.terminate, Op.loop] = 1 := by
  constructor
  · exact terminated_flag_monotone.2.2.1 [Op.loop, Op.terminate] [Op.loop, Op.loop] (by decide)
  · rw [terminated_flag_monotone.2.2.2 [Op.loop, Op.terminate, Op.loop]]
    decide

/-- C2: with acquisitions and `setup` succeeding, no signal delivered, the
first N-1 `loop` calls returning a falsy value and the Nth a truthy stop
indicator (and the default no-op `teardown` and a non-raising
`soft_hi_Z`), `run` invokes `loop` exactly N times and returns exit
code 0. -/
theorem loop_stop_count (b : Behavior) (args : Args) (N fuel : Nat)
    (hN : 0 < N)
    (h1 : b.pnlAcquire = none) (h2 : b.armAcquire = none) (h3 : b.setupResult = none)
    (hsig : ∀ j, b.sigAt j = false)
    (hbefore : ∀ j, j < N - 1 → b.loopResult j = .ret false)
    (hstop : b.loopResult (N - 1) = .ret true)
    (htd : b.teardownResult 0 = none) (hz : b.softHiZResult = none)
    (hfuel : N + 1 ≤ fuel) :
    (run b args fuel).1.countP isLoopCall = N ∧
    (run b args fuel).2 = .returned 0 := by
  obtain ⟨n, rfl⟩ : ∃ n, N = n + 1 := ⟨N - 1, by omega⟩
  obtain ⟨m, rfl⟩ : ∃ m, fuel = n + (m + 2) := ⟨fuel - n - 2, by omega⟩
  have hskip := whileLoop_skip b n (m + 2) 0
    (fun j _ => hsig (0 + j))
    (fun j hj => by rw [Nat.zero_add]; exact hbefore j (by omega))
  rw [Nat.zero_add] at hskip
  have hstop2 := whileLoop_stop b m n (hsig n) (hsig (n + 1)) (by simpa using hstop)
  have hW : whileLoop b (n + (m + 2)) 0 false false =
      (List.replicate n Event.loopCall ++ [Event.loopCall], .done) := by
    rw [hskip, hstop2]
  simp [run, h1, h2, h3, loopPhase, hW, finallyBlock, htd, hz, finish, clear_screen,
    List.countP_append, List.countP_cons, countP_replicate, isLoopCall]

/-- C2, witness: `loop` stops on its second call (N = 2). -/
theorem loop_stop_count_witness :
    (run bStop2 someArgs 5).1.countP isLoopCall = 2 ∧
    (run bStop2 someArgs 5).2 = .returned 0 :=
  loop_stop_count bStop2 someArgs 2 5 (by decide) rfl rfl rfl (fun _ => rfl)
    (fun j hj => by
      have hj0 : j = 0 := by omega
      subst hj0; rfl)
    rfl rfl rfl (by decide)

/-- C4: with acquisitions and `setup` succeeding, no signal, the first
K-1 `loop` calls returning a falsy value and the Kth raising (and a
non-raising `teardown` and `soft_hi_Z`), `run` fires
`on_unexpected_error` exactly once with that exception, still invokes
`teardown` exactly once and with exit code 1, still invokes `soft_hi_Z`
exactly once, and returns exit code 1. -/
theorem loop_error_behavior (b : Behavior) (args : Args) (K fuel : Nat) (e : Exc)
    (hK : 0 < K)
    (h1 : b.pnlAcquire = none) (h2 : b.armAcquire = none) (h3 : b.setupResult = none)
    (hsig : ∀ j, b.sigAt j = false)
    (hbefore : ∀ j, j < K - 1 → b.loopResult j = .ret false)
    (hraise : b.loopResult (K - 1) = .err e)
    (htd : b.teardownResult 1 = none) (hz : b.softHiZResult = none)
    (hfuel : K ≤ fuel) :
    (run b args fuel).1.countP isOnUnexpectedError = 1 ∧
    Event.onUnexpectedError e ∈ (run b args fuel).1 ∧
    (run b args fuel).1.countP isTeardownCall = 1 ∧
    Event.teardownCall 1 ∈ (run b args fuel).1 ∧
    (run b args fuel).1.countP isSoftHiZ = 1 ∧
    (run b args fuel).2 = .returned 1 := by
  obtain ⟨n, rfl⟩ : ∃ n, K = n + 1 := ⟨K - 1, by omega⟩
  obtain ⟨m, rfl⟩ : ∃ m, fuel = n + (m + 1) := ⟨fuel - n - 1, by omega⟩
  have hskip := whileLoop_skip b n (m + 1) 0
    (fun j _ => hsig (0 + j))
    (fun j hj => by rw [Nat.zero_add]; exact hbefore j (by omega))
  rw [Nat.zero_add] at hskip
  have hraise2 := whileLoop_raise b m n e (hsig n) (by simpa using hraise)
  have hW : whileLoop b (n + (m + 1)) 0 false false =
      (List.replicate n Event.loopCall ++ [Event.loopCall], .raised e) := by
    rw [hskip, hraise2]
  simp [run, h1, h2, h3, loopPhase, hW, finallyBlock, htd, hz, finish, clear_screen,
    List.countP_append, List.countP_cons, countP_replicate, isOnUnexpectedError,
    isTeardownCall, isSoftHiZ, List.mem_replicate]

/-- C4, witness: `loop` raises on its second call (K = 2). -/
theorem loop_error_behavior_witness :
    (run bRaise2 someArgs 5).1.countP isOnUnexpectedError = 1 ∧
    Event.onUnexpectedError 7 ∈ (run bRaise2 someArgs 5).1 ∧
    (run bRaise2 someArgs 5).1.countP isTeardownCall = 1 ∧
    Event.teardownCall 1 ∈ (run bRaise2 someArgs 5).1 ∧
    (run bRaise2 someArgs 5).1.countP isSoftHiZ = 1 ∧
    (run bRaise2 someArgs 5).2 = .returned 1 :=
  loop_error_behavior bRaise2 someArgs 2 5 7 (by decide) rfl rfl rfl (fun _ => rfl)
    (fun j hj => by
      have hj0 : j = 0 := by omega
      subst hj0; rfl)
    rfl rfl rfl (by decide)

/-- C5: with acquisitions and `setup` succeeding and the first M `loop`
calls returning a falsy value, a termination signal delivered between
loop call M and the next condition check (and none earlier) makes the
handler fire `on_terminate` exactly once, stops the loop after exactly M
calls, and leads to teardown with exit code 0 and a normal return of 0:
neither error callback fires. -/
theorem signal_termination_behavior (b : Behavior) (args : Args) (M fuel : Nat)
    (_hM : 0 < M)
    (h1 : b.pnlAcquire = none) (h2 : b.armAcquire = none) (h3 : b.setupResult = none)
    (hsiglt : ∀ j, j < M → b.sigAt j = false)
    (hsigM : b.sigAt M = true)
    (hbefore : ∀ j, j < M → b.loopResult j = .ret false)
    (htd : b.teardownResult 0 = none) (hz : b.softHiZResult = none)
    (hfuel : M + 1 ≤ fuel) :
    (run b args fuel).1.countP isOnTerminate = 1 ∧
    (run b args fuel).1.countP isLoopCall = M ∧
    (run b args fuel).1.countP isTeardownCall = 1 ∧
    Event.teardownCall 0 ∈ (run b args fuel).1 ∧
    (run b args fuel).1.countP isOnRunError = 0 ∧
    (run b args fuel).1.countP isOnUnexpectedError = 0 ∧
    (run b args fuel).2 = .returned 0 := by
  obtain ⟨m, rfl⟩ : ∃ m, fuel = M + (m + 1) := ⟨fuel - M - 1, by omega⟩
  have hskip := whileLoop_skip b M (m + 1) 0
    (fun j hj => by rw [Nat.zero_add]; exact hsiglt j hj)
    (fun j hj => by rw [Nat.zero_add]; exact hbefore j hj)
  rw [Nat.zero_add] at hskip
  have hsig2 := whileLoop_sig b m M hsigM
  have hW : whileLoop b (M + (m + 1)) 0 false false =
      (List.replicate M Event.loopCall ++ [Event.sigCaught, Event.onTerminate], .done) := by
    rw [hskip, hsig2]
  simp [run, h1, h2, h3, loopPhase, hW, finallyBlock, htd, hz, finish, clear_screen,
    List.countP_append, List.countP_cons, countP_replicate, isOnTerminate, isLoopCall,
    isTeardownCall, isOnRunError, isOnUnexpectedError, List.mem_replicate]

/-- C5, witness: a signal delivered between loop call 0 and loop call 1
(M = 1). -/
theorem signal_termination_behavior_witness :
    (run bSig1 someArgs 5).1.countP isOnTerminate = 1 ∧
    (run bSig1 someArgs 5).1.countP isLoopCall = 1 ∧
    (run bSig1 someArgs 5).1.countP isTeardownCall = 1 ∧
    Event.teardownCall 0 ∈ (run bSig1 someArgs 5).1 ∧
    (run bSig1 someArgs 5).1.countP isOnRunError = 0 ∧
    (run bSig1 someArgs 5).1.countP isOnUnexpectedError = 0 ∧
    (run bSig1 someArgs 5).2 = .returned 0 :=
  signal_termination_behavior bSig1 someArgs 1 5 (by decide) rfl rfl rfl
    (fun j hj => by
      have hj0 : j = 0 := by omega
      subst hj0; rfl)
    rfl (fun _ _ => rfl) rfl rfl (by decide)

/-- C1, amended: whenever `run` terminates normally after a successful
`setup` (normal stop, loop error or termination signal), `teardown` is
invoked exactly once and `soft_hi_Z` exactly once; when `setup` raises,
`run` still terminates normally but invokes neither. -/
theorem teardown_exactly_once_after_setup (b : Behavior) (args : Args) (fuel c : Nat)
    (h1 : b.pnlAcquire = none) (h2 : b.armAcquire = none)
    (hret : (run b args fuel).2 = .returned c) :
    (b.setupResult = none →
      (run b args fuel).1.countP isTeardownCall = 1 ∧
      (run b args fuel).1.countP isSoftHiZ = 1) ∧
    (∀ e, b.setupResult = some e →
      (run b args fuel).1.countP isTeardownCall = 0 ∧
      (run b args fuel).1.countP isSoftHiZ = 0) := by
  constructor
  · intro h3
    have hcT := whileLoop_countP_zero b isTeardownCall rfl rfl rfl fuel 0 false false
    have hcZ := whileLoop_countP_zero b isSoftHiZ rfl rfl rfl fuel 0 false false
    rcases hx : (whileLoop b fuel 0 false false).2 with _ | e0 | _
    · rcases hte : b.teardownResult 0 with _ | e1
      · simp [run, h1, h2, h3, loopPhase, hx, finallyBlock, hte, finish, clear_screen,
          List.countP_append, List.countP_cons, hcT, hcZ, isTeardownCall, isSoftHiZ]
      · simp [run, h1, h2, h3, loopPhase, hx, finallyBlock, hte, finish] at hret
    · rcases hte : b.teardownResult 1 with _ | e1
      · simp [run, h1, h2, h3, loopPhase, hx, finallyBlock, hte, finish, clear_screen,
          List.countP_append, List.countP_cons, hcT, hcZ, isTeardownCall, isSoftHiZ]
      · simp [run, h1, h2, h3, loopPhase, hx, finallyBlock, hte, finish] at hret
    · simp [run, h1, h2, h3, loopPhase, hx] at hret
  · intro e h3
    simp [run, h1, h2, h3, setupFailEvents, clear_screen, List.countP_cons,
      isTeardownCall, isSoftHiZ]

/-- C1 (amended), witness at a behaviour whose first `loop` call stops. -/
theorem teardown_exactly_once_after_setup_witness :
    (run bOk someArgs 3).1.countP isTeardownCall = 1 ∧
    (run bOk someArgs 3).1.countP isSoftHiZ = 1 :=
  (teardown_exactly_once_after_setup bOk someArgs 3 0 rfl rfl (by decide)).1 rfl

/-- C7: an exception raised by the `teardown` extension point, or by the
arm safe-state command after it, inside the `finally` block is not caught
by `run`: it propagates (and in particular no exit code is returned). -/
theorem teardown_error_propagates (b : Behavior) (args : Args) (fuel : Nat)
    (h1 : b.pnlAcquire = none) (h2 : b.armAcquire = none) (h3 : b.setupResult = none)
    (hterm : (whileLoop b fuel 0 false false).2 ≠ .fuelOut) :
    (∀ e, b.teardownResult (loopExitCode (whileLoop b fuel 0 false false).2) = some e →
      (run b args fuel).2 = .propagated e) ∧
    (∀ e, b.teardownResult (loopExitCode (whileLoop b fuel 0 false false).2) = none →
      b.softHiZResult = some e → (run b args fuel).2 = .propagated e) := by
  rcases hx : (whileLoop b fuel 0 false false).2 with _ | e0 | _
  · constructor
    · intro e hte
      simp only [loopExitCode] at hte
      simp [run, h1, h2, h3, loopPhase, hx, finallyBlock, hte, finish]
    · intro e hte hz
      simp only [loopExitCode] at hte
      simp [run, h1, h2, h3, loopPhase, hx, finallyBlock, hte, hz, finish]
  · constructor
    · intro e hte
      simp only [loopExitCode] at hte
      simp [run, h1, h2, h3, loopPhase, hx, finallyBlock, hte, finish]
    · intro e hte hz
      simp only [loopExitCode] at hte
      simp [run, h1, h2, h3, loopPhase, hx, finallyBlock, hte, hz, finish]
  · exact absurd hx hterm

/-- C7, witness: a raising `teardown` makes `run` end in a propagated
exception. -/
theorem teardown_error_propagates_witness :
    (run bTdFail someArgs 3).2 = .propagated 13 :=
  (teardown_error_propagates bTdFail someArgs 3 rfl rfl rfl (by decide)).1 13 rfl

/-- C10: whenever `run` returns normally and `teardown` was invoked, the
exit code `teardown` received equals the value `run` returns. -/
theorem teardown_sees_final_exit_code (b : Behavior) (args : Args) (fuel : Nat) (c n : Nat)
    (hret : (run b args fuel).2 = .returned n)
    (hmem : Event.teardownCall c ∈ (run b args fuel).1) :
    c = n := by
  rcases h1 : b.pnlAcquire with _ | e1
  · rcases h2 : b.armAcquire with _ | e2
    · rcases h3 : b.setupResult with _ | e3
      · rcases hx : (whileLoop b fuel 0 false false).2 with _ | e0 | _
        · rcases hte : b.teardownResult 0 with _ | e4
          · rcases hz : b.softHiZResult with _ | e5
            · simp [run, h1, h2, h3, loopPhase, hx, finallyBlock, hte, hz, finish,
                clear_screen, whileLoop_no_teardown] at hret hmem
              omega
            · simp [run, h1, h2, h3, loopPhase, hx, finallyBlock, hte, hz, finish] at hret
          · simp [run, h1, h2, h3, loopPhase, hx, finallyBlock, hte, finish] at hret
        · rcases hte : b.teardownResult 1 with _ | e4
          · rcases hz : b.softHiZResult with _ | e5
            · simp [run, h1, h2, h3, loopPhase, hx, finallyBlock, hte, hz, finish,
                clear_screen, whileLoop_no_teardown] at hret hmem
              omega
            · simp [run, h1, h2, h3, loopPhase, hx, finallyBlock, hte, hz, finish] at hret
          · simp [run, h1, h2, h3, loopPhase, hx, finallyBlock, hte, finish] at hret
        · simp [run, h1, h2, h3, loopPhase, hx] at hret
      · simp [run, h1, h2, h3, setupFailEvents, clear_screen] at hmem
    · simp [run, h1, h2] at hret
  · simp [run, h1] at hret

/-- C10, witness at the loop-error behaviour: teardown received 1 and
`run` returned 1. -/
theorem teardown_sees_final_exit_code_witness : (1 : Nat) = 1 :=
  teardown_sees_final_exit_code bRaise2 someArgs 5 1 1 (by decide) (by decide)

end Youpi2App
